import Mathlib

/-!
Shallow embedding of `dataset.py` (class `FinancialSentimentCollector`) from
the stock-market-ai-dataset repository, together with proofs about the
collection-and-aggregation pipeline: the price indicator attachment of
`collect_price_data`, the sentiment labelling and daily aggregation of
`collect_news_sentiment` / `collect_alternative_news`, the hourly
engagement-weighted aggregation of `collect_social_sentiment`, and the
persistence discipline of `collect_sentiment_data_batch`.

Numeric conventions: Python floats are modelled as exact rationals (ℚ).
`round(x, n)` is Python's builtin round, which rounds half to even
("banker's rounding"); it is modelled by `rhe` below.  External
collaborators (yfinance, NewsAPI, the HTML scraping targets, tweepy, and
the VADER sentiment analyzer `polarity_scores`) are modelled as explicit
inputs: a price series is a list of fetched bars, an analyzer is a function
from text to a score record, and the network responses are data.
-/

/-! ### Rounding: Python's `round(x, n)` (round half to even) -/

/-- Round a rational to the nearest integer, ties to the even integer:
Python's builtin `round` on an exact value. -/
def rhe (q : ℚ) : ℤ :=
  let f : ℤ := ⌊q⌋
  let r : ℚ := q - f
  if r < 1/2 then f
  else if 1/2 < r then f + 1
  else if f % 2 = 0 then f else f + 1

/-- Python's `round(x, 2)`. -/
def round2 (q : ℚ) : ℚ := (rhe (q * 100) : ℚ) / 100

/-- Python's `round(x, 3)`. -/
def round3 (q : ℚ) : ℚ := (rhe (q * 1000) : ℚ) / 1000

theorem abs_rhe_sub (q : ℚ) : |(rhe q : ℚ) - q| ≤ 1/2 := by
  have hle : ((⌊q⌋ : ℚ)) ≤ q := Int.floor_le q
  have hlt : q < (⌊q⌋ : ℚ) + 1 := Int.lt_floor_add_one q
  show |((if q - (⌊q⌋ : ℚ) < 1/2 then (⌊q⌋ : ℤ)
          else if 1/2 < q - (⌊q⌋ : ℚ) then ⌊q⌋ + 1
          else if ⌊q⌋ % 2 = 0 then ⌊q⌋ else ⌊q⌋ + 1 : ℤ) : ℚ) - q| ≤ 1/2
  split
  · rw [abs_le]; constructor <;> push_cast <;> linarith
  · split
    · rw [abs_le]; constructor <;> push_cast <;> linarith
    · have hr : q - (⌊q⌋ : ℚ) = 1/2 :=
        le_antisymm (not_lt.mp (by assumption)) (not_lt.mp (by assumption))
      split <;> (rw [abs_le]; constructor <;> push_cast <;> linarith)

theorem abs_round3_sub (q : ℚ) : |round3 q - q| ≤ 1/2000 := by
  have h := abs_rhe_sub (q * 1000)
  have h2 : round3 q - q = ((rhe (q * 1000) : ℚ) - q * 1000) / 1000 := by
    unfold round3; ring
  rw [h2, abs_div]
  have : |(1000 : ℚ)| = 1000 := by norm_num
  rw [this]
  linarith [abs_rhe_sub (q * 1000)]

/-! ### Sentiment scoring

`polarity_scores` of the (lexicon-augmented) VADER analyzer is external: a
scorer is any function from text to a `Scores` record.  The collectors turn a
`Scores` record into the stored `sentiment` dictionary, deriving the label
from the compound score by the fixed 0.05 / -0.05 thresholds (the expression
`"positive" if compound >= 0.05 else "negative" if compound <= -0.05 else
"neutral"` appearing verbatim at dataset.py:241, 369 and 473). -/

/-- The four fields of `polarity_scores`' result. -/
structure Scores where
  compound : ℚ
  pos : ℚ
  neg : ℚ
  neu : ℚ
deriving DecidableEq

/-- The threshold rule deriving the stored label from the compound score. -/
def sentimentLabel (compound : ℚ) : String :=
  if compound ≥ 5/100 then "positive"
  else if compound ≤ -(5/100) then "negative"
  else "neutral"

/-- The stored `sentiment` sub-dictionary of an article or tweet entry. -/
structure Sentiment where
  compound : ℚ
  positive : ℚ
  negative : ℚ
  neutral : ℚ
  label : String
deriving DecidableEq

/-- Build the stored `sentiment` dictionary from an analyzer result
(dataset.py:236-243, 364-371, 468-475). -/
def mkSentiment (s : Scores) : Sentiment :=
  { compound := s.compound
    positive := s.pos
    negative := s.neg
    neutral := s.neu
    label := sentimentLabel s.compound }

/-! ### Price series collector (`collect_price_data`, dataset.py:121-181)

A fetched bar carries the close price and volume (the open/high/low fields
play no role in the indicator computation).  The indicator block runs only
under the guard `if len(price_data) > 10` (dataset.py:144) and then, for
every index `i` in `range(5, len(price_data))`, sets
`volatility_5period`, `momentum_5period` and (when the trailing mean volume
is positive) `volume_ratio_5period` on point `i`.  `np.std` is a floating
point library function whose value involves a square root; it is modelled
as an abstract function `std` from the 5-element window to a rational, which
no claim's value depends on. -/

/-- One fetched OHLCV bar, reduced to the fields the indicator block reads. -/
structure Bar where
  close : ℚ
  volume : ℚ
deriving DecidableEq

/-- One output price point: the bar data plus the optional derived
indicator fields (absent below index 5 and for short series). -/
structure PricePoint where
  close : ℚ
  volume : ℚ
  volatility_5period : Option ℚ
  momentum_5period : Option ℚ
  volume_ratio_5period : Option ℚ
deriving DecidableEq

/-- A point before any indicator is attached (dataset.py:133-141). -/
def mkPlainPoint (b : Bar) : PricePoint :=
  { close := b.close, volume := b.volume
    volatility_5period := none, momentum_5period := none
    volume_ratio_5period := none }

/-- `closes[i-5:i]`: the trailing 5-element window before index `i`. -/
def window5 (xs : List ℚ) (i : ℕ) : List ℚ := (xs.drop (i - 5)).take 5

/-- `np.mean(volumes[i-5:i])` for `i ≥ 5`. -/
def mean5 (xs : List ℚ) (i : ℕ) : ℚ := (window5 xs i).sum / 5

/-- Point `i` of the output series when the `len(price_data) > 10` guard
holds: for `i ≥ 5` the three indicator loops (dataset.py:149-164) set the
derived fields, otherwise the point stays plain. -/
def attachAt (std : List ℚ → ℚ) (bars : List Bar) (i : ℕ) : PricePoint :=
  let closes := bars.map Bar.close
  let volumes := bars.map Bar.volume
  let b := bars.getD i ⟨0, 0⟩
  if 5 ≤ i then
    { close := b.close
      volume := b.volume
      volatility_5period :=
        some (round2 (std (window5 closes i) / ((window5 closes i).sum / 5) * 100))
      momentum_5period :=
        some (round2 ((closes.getD i 0 - closes.getD (i - 5) 0) /
                       closes.getD (i - 5) 0 * 100))
      volume_ratio_5period :=
        if 0 < mean5 volumes i
        then some (round2 (volumes.getD i 0 / mean5 volumes i))
        else none }
  else mkPlainPoint b

/-- The price series produced by `collect_price_data` from the fetched bars:
plain points, with the indicator fields attached at indices 5 and above when
the series has more than 10 points (dataset.py:131-164). -/
def collect_price_data (std : List ℚ → ℚ) (bars : List Bar) : List PricePoint :=
  if 10 < bars.length then (List.range bars.length).map (attachAt std bars)
  else bars.map mkPlainPoint

theorem length_collect_price_data (std : List ℚ → ℚ) (bars : List Bar) :
    (collect_price_data std bars).length = bars.length := by
  unfold collect_price_data
  split <;> simp

/-! ### The dictionary-accumulator grouping pattern

Both `collect_news_sentiment` (daily buckets, dataset.py:248-271) and
`collect_social_sentiment` (hourly buckets, dataset.py:480-514) build a dict
keyed by a time bucket: a fresh entry is created on first sight of a key and
every item folds into its key's accumulator.  A Python dict preserves
insertion order, so the dict is modelled as an association list where a new
key is appended at the end and an existing key is updated in place. -/

/-- One step of the dict-accumulator pattern: fold item `a` into the entry
for key `k`, creating the entry from `b0` when the key is new. -/
def addToMap {α β : Type} (f : β → α → β) (b0 : β) :
    List (String × β) → String → α → List (String × β)
  | [], k, a => [(k, f b0 a)]
  | (k', d) :: m, k, a =>
      if k = k' then (k', f d a) :: m else (k', d) :: addToMap f b0 m k a

/-- Group a list of items into the dict built by `addToMap`, folding the
items in order. -/
def groupFold {α β : Type} (key : α → String) (f : β → α → β) (b0 : β)
    (xs : List α) : List (String × β) :=
  xs.foldl (fun m a => addToMap f b0 m (key a) a) []

theorem mem_addToMap {α β : Type} (P : String → β → Prop) (f : β → α → β)
    (b0 : β) (m : List (String × β)) (k : String) (a : α)
    (hm : ∀ e ∈ m, P e.1 e.2) (hnew : P k (f b0 a))
    (hstep : ∀ d, P k d → P k (f d a)) :
    ∀ e ∈ addToMap f b0 m k a, P e.1 e.2 := by
  induction m with
  | nil =>
      intro e he
      simp only [addToMap, List.mem_singleton] at he
      subst he; exact hnew
  | cons hd tl ih =>
      intro e he
      obtain ⟨k', d⟩ := hd
      simp only [addToMap] at he
      by_cases hk : k = k'
      · rw [if_pos hk] at he
        rcases List.mem_cons.mp he with h | h
        · subst h
          exact hk ▸ hstep d (hk ▸ hm (k', d) (List.mem_cons_self _ _))
        · exact hm e (List.mem_cons_of_mem _ h)
      · rw [if_neg hk] at he
        rcases List.mem_cons.mp he with h | h
        · subst h; exact hm (k', d) (List.mem_cons_self _ _)
        · exact ih (fun e' he' => hm e' (List.mem_cons_of_mem _ he')) e h

theorem mem_groupFold {α β : Type} (key : α → String) (f : β → α → β)
    (b0 : β) (P : String → β → Prop)
    (hnew : ∀ a : α, P (key a) (f b0 a))
    (hstep : ∀ (a : α) (d : β), P (key a) d → P (key a) (f d a)) :
    ∀ (xs : List α), ∀ e ∈ groupFold key f b0 xs, P e.1 e.2 := by
  have main : ∀ (xs : List α) (m : List (String × β)),
      (∀ e ∈ m, P e.1 e.2) →
      ∀ e ∈ xs.foldl (fun m a => addToMap f b0 m (key a) a) m, P e.1 e.2 := by
    intro xs
    induction xs with
    | nil => intro m hm e he; exact hm e he
    | cons x tl ih =>
        intro m hm e he
        exact ih _ (mem_addToMap P f b0 m (key x) x hm (hnew x) (hstep x)) e he
  intro xs
  exact main xs [] (by intro e he; cases he)

/-- Summing a numeric projection over the dict entries: each `addToMap` step
raises the total by the step increment of `g`. -/
theorem sum_addToMap {α β : Type} (g : β → ℕ) (f : β → α → β) (b0 : β)
    (c : ℕ) (hg : ∀ (d : β) (a : α), g (f d a) = g d + c) (hg0 : g b0 = 0)
    (m : List (String × β)) (k : String) (a : α) :
    ((addToMap f b0 m k a).map (fun e => g e.2)).sum
      = ((m.map (fun e => g e.2)).sum) + c := by
  induction m with
  | nil => simp [addToMap, hg, hg0]
  | cons hd tl ih =>
      obtain ⟨k', d⟩ := hd
      by_cases hk : k = k'
      · simp [addToMap, hk, hg]; ring
      · simp [addToMap, hk, ih]; ring

theorem sum_groupFold {α β : Type} (key : α → String) (g : β → ℕ)
    (f : β → α → β) (b0 : β) (c : ℕ)
    (hg : ∀ (d : β) (a : α), g (f d a) = g d + c) (hg0 : g b0 = 0)
    (xs : List α) :
    ((groupFold key f b0 xs).map (fun e => g e.2)).sum = xs.length * c := by
  have main : ∀ (xs : List α) (m : List (String × β)),
      ((xs.foldl (fun m a => addToMap f b0 m (key a) a) m).map
          (fun e => g e.2)).sum
        = ((m.map (fun e => g e.2)).sum) + xs.length * c := by
    intro xs
    induction xs with
    | nil => intro m; simp
    | cons x tl ih =>
        intro m
        rw [List.foldl_cons, ih, sum_addToMap g f b0 c hg hg0]
        simp [List.length_cons]; ring
  have h := main xs []
  simpa using h

/-- The keys of the dict after one `addToMap` step: unchanged for a seen
key, the new key appended otherwise. -/
theorem keys_addToMap {α β : Type} (f : β → α → β) (b0 : β)
    (m : List (String × β)) (k : String) (a : α) :
    (addToMap f b0 m k a).map Prod.fst
      = if k ∈ m.map Prod.fst then m.map Prod.fst
        else m.map Prod.fst ++ [k] := by
  induction m with
  | nil => simp [addToMap]
  | cons hd tl ih =>
      obtain ⟨k', d⟩ := hd
      by_cases hk : k = k'
      · subst hk
        simp [addToMap]
      · simp only [addToMap, if_neg hk, List.map_cons, ih, List.mem_cons]
        by_cases hmem : k ∈ tl.map Prod.fst
        · simp [hmem, hk]
        · simp [hmem, hk]

/-- `addToMap` keeps the dict's keys distinct. -/
theorem nodup_keys_addToMap {α β : Type} (f : β → α → β) (b0 : β)
    (m : List (String × β)) (k : String) (a : α)
    (hnd : (m.map Prod.fst).Nodup) :
    ((addToMap f b0 m k a).map Prod.fst).Nodup := by
  rw [keys_addToMap]
  by_cases hmem : k ∈ m.map Prod.fst
  · rwa [if_pos hmem]
  · rw [if_neg hmem]
    simp [List.nodup_append, hnd, hmem]

/-- Where each entry of `addToMap` comes from, when the dict keys are
distinct: an untouched entry of another key, a fresh entry for an unseen
key, or the updated entry of the key itself. -/
theorem mem_addToMap_cases {α β : Type} (f : β → α → β) (b0 : β)
    (m : List (String × β)) (k : String) (a : α)
    (hnd : (m.map Prod.fst).Nodup) :
    ∀ e ∈ addToMap f b0 m k a,
      (e.1 ≠ k ∧ e ∈ m) ∨
      (e.1 = k ∧ k ∉ m.map Prod.fst ∧ e.2 = f b0 a) ∨
      (e.1 = k ∧ ∃ d, (k, d) ∈ m ∧ e.2 = f d a) := by
  induction m with
  | nil =>
      intro e he
      simp only [addToMap, List.mem_singleton] at he
      subst he
      exact Or.inr (Or.inl ⟨rfl, by simp, rfl⟩)
  | cons hd tl ih =>
      obtain ⟨k', d⟩ := hd
      simp only [List.map_cons, List.nodup_cons] at hnd
      obtain ⟨hk'nin, hndtl⟩ := hnd
      intro e he
      simp only [addToMap] at he
      by_cases hk : k = k'
      · subst hk
        rw [if_pos rfl] at he
        rcases List.mem_cons.mp he with rfl | hmem
        · exact Or.inr (Or.inr ⟨rfl, d, List.mem_cons_self _ _, rfl⟩)
        · refine Or.inl ⟨?_, List.mem_cons_of_mem _ hmem⟩
          intro heq
          exact hk'nin (heq ▸ List.mem_map_of_mem Prod.fst hmem)
      · rw [if_neg hk] at he
        rcases List.mem_cons.mp he with rfl | hmem
        · exact Or.inl ⟨fun h => hk h.symm, List.mem_cons_self _ _⟩
        · rcases ih hndtl e hmem with ⟨hne, hmem'⟩ | ⟨heq, hnin, hval⟩ |
            ⟨heq, d', hd', hval⟩
          · exact Or.inl ⟨hne, List.mem_cons_of_mem _ hmem'⟩
          · refine Or.inr (Or.inl ⟨heq, ?_, hval⟩)
            simp only [List.map_cons, List.mem_cons]
            push_neg
            exact ⟨hk, hnin⟩
          · exact Or.inr (Or.inr ⟨heq, d', List.mem_cons_of_mem _ hd', hval⟩)

/-- The dict-accumulator characterization: the accumulator stored under a
key is exactly the fold, in input order, of the input items carrying that
key. -/
theorem groupFold_entries_filter {α β : Type} (key : α → String)
    (f : β → α → β) (b0 : β) (xs : List α) :
    ∀ e ∈ groupFold key f b0 xs,
      e.2 = ((xs.filter (fun x => decide (key x = e.1))).foldl f b0) := by
  suffices h : ∀ (xs p : List α) (m : List (String × β)),
      (m.map Prod.fst).Nodup →
      (∀ e ∈ m,
        e.2 = ((p.filter (fun x => decide (key x = e.1))).foldl f b0)) →
      (∀ k, k ∉ m.map Prod.fst →
        p.filter (fun x => decide (key x = k)) = []) →
      ∀ e ∈ xs.foldl (fun m a => addToMap f b0 m (key a) a) m,
        e.2 = (((p ++ xs).filter (fun x => decide (key x = e.1))).foldl
          f b0) by
    intro e he
    have hx := h xs [] [] (by simp) (by simp) (by simp) e he
    simpa using hx
  intro xs
  induction xs with
  | nil =>
      intro p m hnd hent hkey e he
      rw [List.append_nil]
      exact hent e he
  | cons x tl ih =>
      intro p m hnd hent hkey e he
      rw [List.foldl_cons] at he
      have happ : p ++ x :: tl = (p ++ [x]) ++ tl := by simp
      rw [happ]
      refine ih (p ++ [x]) (addToMap f b0 m (key x) x)
        (nodup_keys_addToMap f b0 m (key x) x hnd) ?_ ?_ e he
      · intro e' he'
        rcases mem_addToMap_cases f b0 m (key x) x hnd e' he' with
          ⟨hne, hmem⟩ | ⟨heq, hnin, hval⟩ | ⟨heq, d, hd, hval⟩
        · rw [List.filter_append]
          have hx0 : [x].filter (fun y => decide (key y = e'.1)) = [] := by
            simp [List.filter, decide_eq_false (Ne.symm hne)]
          rw [hx0, List.append_nil]
          exact hent e' hmem
        · rw [hval, List.filter_append, hkey e'.1 (heq ▸ hnin)]
          have hx1 : [x].filter (fun y => decide (key y = e'.1)) = [x] := by
            simp [List.filter, heq.symm]
          rw [hx1]
          simp
        · have hdval : d
              = ((p.filter (fun y => decide (key y = e'.1))).foldl f b0) := by
            have := hent (key x, d) (heq ▸ hd)
            simpa [heq] using this
          rw [hval, List.filter_append]
          have hx1 : [x].filter (fun y => decide (key y = e'.1)) = [x] := by
            simp [List.filter, heq.symm]
          rw [hx1, List.foldl_append, ← hdval]
          simp
      · intro k hknot
        rw [keys_addToMap] at hknot
        by_cases hmem : key x ∈ m.map Prod.fst
        · rw [if_pos hmem] at hknot
          have hne : key x ≠ k := fun h => hknot (h ▸ hmem)
          rw [List.filter_append, hkey k hknot]
          simp [List.filter, decide_eq_false hne]
        · rw [if_neg hmem] at hknot
          simp only [List.mem_append, List.mem_singleton] at hknot
          push_neg at hknot
          obtain ⟨h1, h2⟩ := hknot
          rw [List.filter_append, hkey k h1]
          simp [List.filter, decide_eq_false (Ne.symm h2)]

/-! ### Python's stable `sorted(..., key=...)`

`collect_news_sentiment` sorts the daily aggregates by date and
`collect_social_sentiment` sorts the hourly aggregates by bucket key
(dataset.py:291, 537) with Python's stable `sorted`.  A stable sort is
determined by its comparison, so it is modelled by a stable insertion sort:
each element is inserted after all earlier elements that do not compare
strictly greater. -/

/-- Insert `a` before the first element strictly greater under `lt`
(so after every earlier element equal to it: stability). -/
def insertStable {α : Type} (lt : α → α → Bool) (a : α) : List α → List α
  | [] => [a]
  | b :: l => if lt a b then a :: b :: l else b :: insertStable lt a l

/-- Python's stable `sorted` with strict comparison `lt`. -/
def sortStable {α : Type} (lt : α → α → Bool) (xs : List α) : List α :=
  xs.foldl (fun acc a => insertStable lt a acc) []

theorem insertStable_perm {α : Type} (lt : α → α → Bool) (a : α)
    (l : List α) : List.Perm (insertStable lt a l) (a :: l) := by
  induction l with
  | nil => simp [insertStable]
  | cons b tl ih =>
      simp only [insertStable]
      split
      · exact List.Perm.refl _
      · exact List.Perm.trans (List.Perm.cons b ih) (List.Perm.swap a b tl)

theorem sortStable_perm {α : Type} (lt : α → α → Bool) (xs : List α) :
    List.Perm (sortStable lt xs) xs := by
  have main : ∀ (xs acc : List α),
      List.Perm (xs.foldl (fun acc a => insertStable lt a acc) acc)
        (xs.reverse ++ acc) := by
    intro xs
    induction xs with
    | nil => intro acc; simp
    | cons x tl ih =>
        intro acc
        rw [List.foldl_cons]
        refine List.Perm.trans (ih _) ?_
        have h2 : (x :: tl).reverse ++ acc = tl.reverse ++ (x :: acc) := by simp
        rw [h2]
        exact List.Perm.append_left _ (insertStable_perm lt x acc)
  have h := main xs []
  simpa using h.trans (by simp)

theorem mem_sortStable {α : Type} (lt : α → α → Bool) (xs : List α) (a : α) :
    a ∈ sortStable lt xs ↔ a ∈ xs :=
  (sortStable_perm lt xs).mem_iff

/-! ### News sentiment collector
(`collect_news_sentiment`, dataset.py:183-304, and its fallback
`collect_alternative_news`, dataset.py:306-403)

The primary provider's JSON response and the fallback path's scraped
candidate blocks are external data, carried by a `NewsEnv`. -/

/-- One article object of the primary provider's JSON response. -/
structure RawArticle where
  source : String
  title : String
  description : String
  published_at : String
  url : String
deriving DecidableEq

/-- A processed article entry (dataset.py:231-244 and 359-372). -/
structure Article where
  source : String
  title : String
  published_at : String
  url : String
  sentiment : Sentiment
deriving DecidableEq

/-- The primary path's article processing (dataset.py:218-245): combine
title and description, skip articles whose stripped text is shorter than
20 characters, score the text, and build the entry. -/
def processNewsArticles (an : String → Scores) (raws : List RawArticle) :
    List Article :=
  raws.filterMap fun a =>
    let text := a.title ++ " " ++ a.description
    if text.trim.length < 20 then none
    else some { source := a.source, title := a.title
                published_at := a.published_at, url := a.url
                sentiment := mkSentiment (an text) }

/-- `article["published_at"].split("T")[0]` (dataset.py:251). -/
def dateKey (a : Article) : String := (a.published_at.splitOn "T").getD 0 ""

/-- The per-date accumulator dict value (dataset.py:253-259). -/
structure DayAgg where
  articles : ℕ
  sentiment_sum : ℚ
  positive_count : ℕ
  negative_count : ℕ
  neutral_count : ℕ
deriving DecidableEq

def dayAgg0 : DayAgg := ⟨0, 0, 0, 0, 0⟩

/-- Fold one article into its date's accumulator (dataset.py:261-269). -/
def addArticle (d : DayAgg) (a : Article) : DayAgg :=
  let d' : DayAgg :=
    { d with articles := d.articles + 1
             sentiment_sum := d.sentiment_sum + a.sentiment.compound }
  if a.sentiment.label = "positive" then
    { d' with positive_count := d'.positive_count + 1 }
  else if a.sentiment.label = "negative" then
    { d' with negative_count := d'.negative_count + 1 }
  else
    { d' with neutral_count := d'.neutral_count + 1 }

/-- The `daily_sentiment` dict (dataset.py:248-271). -/
def daily_sentiment (arts : List Article) : List (String × DayAgg) :=
  groupFold dateKey addArticle dayAgg0 arts

/-- One emitted daily aggregate (dataset.py:278-285). -/
structure DailyAvg where
  date : String
  articles_count : ℕ
  avg_sentiment : ℚ
  positive_ratio : ℚ
  negative_ratio : ℚ
  neutral_ratio : ℚ
deriving DecidableEq

/-- The `daily_averages` list (dataset.py:274-285): every dict entry with a
positive article count becomes an aggregate with rounded average and label
ratios. -/
def daily_averages (arts : List Article) : List DailyAvg :=
  (daily_sentiment arts).filterMap fun e =>
    if 0 < e.2.articles then
      some { date := e.1
             articles_count := e.2.articles
             avg_sentiment := round3 (e.2.sentiment_sum / e.2.articles)
             positive_ratio := round3 ((e.2.positive_count : ℚ) / e.2.articles)
             negative_ratio := round3 ((e.2.negative_count : ℚ) / e.2.articles)
             neutral_ratio := round3 ((e.2.neutral_count : ℚ) / e.2.articles) }
    else none

/-- One candidate article block extracted by the fallback scraper
(dataset.py:342-356): the heading text when a heading element was found,
the date text (or "N/A"), and the source host.  The list an environment
carries is the concatenation, in page order, of the first 20 candidate
blocks of each fetched page (dataset.py:344). -/
structure AltBlock where
  heading : Option String
  pub : String
  host : String
deriving DecidableEq

/-- The fallback path's article entry (dataset.py:345-373): a block with no
heading is skipped, otherwise the heading alone is scored. -/
def mkAltArticle (an : String → Scores) (b : AltBlock) : Option Article :=
  match b.heading with
  | none => none
  | some t =>
      some { source := b.host, title := t, published_at := b.pub, url := "N/A"
             sentiment := mkSentiment (an t) }

/-- The primary provider's JSON response (status code and parsed body). -/
structure PrimaryResp where
  status_code : ℕ
  status : String
  totalResults : ℕ
  articles : List RawArticle
deriving DecidableEq

/-- The external world a news collection run reads: the analyzer, the
primary provider's response, and the fallback pages' candidate blocks. -/
structure NewsEnv where
  an : String → Scores
  primary : PrimaryResp
  altBlocks : List AltBlock

/-- The news collector's result: a primary-path bundle with daily
aggregates, a fallback-path bundle of raw scored articles, the fallback's
no-data status record, or an error record (both functions' top-level
`except` clause, dataset.py:303-304 and 402-403). -/
inductive NewsResult where
  | primaryOk (ticker : String) (daily : List DailyAvg)
      (articles : List Article) (total : ℕ)
  | altOk (ticker : String) (articles : List Article) (total : ℕ)
  | altStatus (ticker msg : String)
  | err (ticker msg : String)
deriving DecidableEq

/-- `collect_alternative_news` (dataset.py:306-403): build scored entries
from the candidate blocks; with no usable article, report a status record
(not an error).  The `days_back` argument is accepted and unused, as in the
source. -/
def collect_alternative_news (env : NewsEnv) (ticker asset_type : String)
    (days_back : ℕ) : NewsResult :=
  let articles := env.altBlocks.filterMap (mkAltArticle env.an)
  if articles.isEmpty then
    .altStatus ticker "No articles found through alternative sources"
  else .altOk ticker articles articles.length

/-- `collect_news_sentiment` (dataset.py:183-301): with no NewsAPI key, go
to the fallback (dataset.py:185-187); with a key, fall back on a non-200
status (dataset.py:210-211) or a bad/empty payload (dataset.py:214-215),
and otherwise process the articles and group them by day, sorting the daily
aggregates ascending by date (dataset.py:287-301). -/
def collect_news_sentiment (env : NewsEnv) (newsapi_key : Option String)
    (ticker asset_type : String) (days_back : ℕ) : NewsResult :=
  match newsapi_key with
  | none => collect_alternative_news env ticker asset_type days_back
  | some _ =>
      if env.primary.status_code ≠ 200 then
        collect_alternative_news env ticker asset_type days_back
      else if env.primary.status ≠ "ok" ∨ env.primary.totalResults = 0 then
        collect_alternative_news env ticker asset_type days_back
      else
        let articles := processNewsArticles env.an env.primary.articles
        .primaryOk ticker
          (sortStable (fun a b => decide (a.date < b.date))
            (daily_averages articles))
          articles articles.length

/-! ### Social sentiment collector
(`collect_social_sentiment`, dataset.py:405-550)

The tweepy fetch, the date-window filter, the regex text cleaning and the
minimum-length filter (dataset.py:438-455) run before any tweet entry is
built; the aggregation below is therefore modelled over the list of tweet
entries that survived those filters, in fetch order.  A tweet entry's
`created_at` string has the fixed form `YYYY-MM-DD HH:MM:SS`
(dataset.py:463), so the re-parse and `%Y-%m-%d %H` re-format at
dataset.py:484-485 is truncation to the first 13 characters. -/

/-- One tweet entry (dataset.py:461-476). -/
structure Tweet where
  id : String
  created_at : String
  text : String
  user_followers : ℕ
  retweet_count : ℕ
  favorite_count : ℕ
  sentiment : Sentiment
deriving DecidableEq

/-- Build a tweet entry from the cleaned text and the platform's counters
(dataset.py:457-476): the cleaned text is scored and the label derived. -/
def mkTweetEntry (an : String → Scores) (id created_at text : String)
    (user_followers retweet_count favorite_count : ℕ) : Tweet :=
  { id := id, created_at := created_at, text := text
    user_followers := user_followers, retweet_count := retweet_count
    favorite_count := favorite_count, sentiment := mkSentiment (an text) }

/-- The engagement weight formula
`1 + 0.1 * (retweet_count + favorite_count) + 0.001 * user_followers`
(dataset.py:499) as a function of the three counters. -/
def engagementWeight (followers reposts likes : ℚ) : ℚ :=
  1 + (1/10) * (reposts + likes) + (1/1000) * followers

/-- A tweet entry's engagement weight (dataset.py:499). -/
def tweetWeight (t : Tweet) : ℚ :=
  engagementWeight (t.user_followers : ℚ) (t.retweet_count : ℚ)
    (t.favorite_count : ℚ)

/-- `created_dt.strftime("%Y-%m-%d %H")` on the entry's fixed-form
timestamp (dataset.py:484-485). -/
def dateHourKey (t : Tweet) : String := ⟨t.created_at.toList.take 13⟩

/-- The per-hour accumulator dict value (dataset.py:488-496). -/
structure HourAgg where
  tweets : ℕ
  sentiment_sum : ℚ
  sentiment_weighted_sum : ℚ
  total_weight : ℚ
  positive_count : ℕ
  negative_count : ℕ
  neutral_count : ℕ
deriving DecidableEq

def hourAgg0 : HourAgg := ⟨0, 0, 0, 0, 0, 0, 0⟩

/-- Fold one tweet into its hour's accumulator (dataset.py:498-511). -/
def addTweet (d : HourAgg) (t : Tweet) : HourAgg :=
  let w := tweetWeight t
  let d' : HourAgg :=
    { d with
        tweets := d.tweets + 1
        sentiment_sum := d.sentiment_sum + t.sentiment.compound
        sentiment_weighted_sum :=
          d.sentiment_weighted_sum + t.sentiment.compound * w
        total_weight := d.total_weight + w }
  if t.sentiment.label = "positive" then
    { d' with positive_count := d'.positive_count + 1 }
  else if t.sentiment.label = "negative" then
    { d' with negative_count := d'.negative_count + 1 }
  else
    { d' with neutral_count := d'.neutral_count + 1 }

/-- The `hourly_sentiment` dict (dataset.py:480-514). -/
def hourly_sentiment (tweets : List Tweet) : List (String × HourAgg) :=
  groupFold dateHourKey addTweet hourAgg0 tweets

/-- One emitted hourly aggregate (dataset.py:523-531). -/
structure HourlyAvg where
  date_hour : String
  tweets_count : ℕ
  avg_sentiment : ℚ
  weighted_sentiment : ℚ
  positive_ratio : ℚ
  negative_ratio : ℚ
  neutral_ratio : ℚ
deriving DecidableEq

/-- The `hourly_averages` list (dataset.py:517-531): every dict entry with a
positive tweet count becomes an aggregate; the weighted average falls back
to the unweighted average when the total weight is not positive
(dataset.py:521). -/
def hourly_averages (tweets : List Tweet) : List HourlyAvg :=
  (hourly_sentiment tweets).filterMap fun e =>
    if 0 < e.2.tweets then
      let avg := e.2.sentiment_sum / (e.2.tweets : ℚ)
      let weighted :=
        if 0 < e.2.total_weight
        then e.2.sentiment_weighted_sum / e.2.total_weight
        else avg
      some { date_hour := e.1
             tweets_count := e.2.tweets
             avg_sentiment := round3 avg
             weighted_sentiment := round3 weighted
             positive_ratio := round3 ((e.2.positive_count : ℚ) / e.2.tweets)
             negative_ratio := round3 ((e.2.negative_count : ℚ) / e.2.tweets)
             neutral_ratio := round3 ((e.2.neutral_count : ℚ) / e.2.tweets) }
    else none

/-- The returned social bundle (dataset.py:533-547): the hourly aggregates
sorted ascending by bucket key, the raw tweet list capped to the first 100
entries (`tweets[:100]`, dataset.py:538), and the `total_tweets` metadata
count over the full list (dataset.py:541). -/
structure SocialBundle where
  hourly_averages : List HourlyAvg
  tweets : List Tweet
  total_tweets : ℕ
deriving DecidableEq

/-- `collect_social_sentiment`'s successful result, as a function of the
tweet entries that survived the fetch-window and length filters. -/
def collect_social_sentiment (tweets : List Tweet) : SocialBundle :=
  { hourly_averages :=
      sortStable (fun a b => decide (a.date_hour < b.date_hour))
        (hourly_averages tweets)
    tweets := tweets.take 100
    total_tweets := tweets.length }

/-! ### Batch orchestrator
(`collect_sentiment_data_batch`, dataset.py:552-664)

Each of the three phases submits one task per ticker and consumes results
as they complete.  For every completed future, the loop body is the same
shape (dataset.py:566-592, 602-628, 638-664): obtaining the result may
raise (modelled as `Except.error`), a result dict may carry an `"error"`
key, and only a result without that key is written to the category's
directory and recorded under the category key; an error is recorded under
the category's error key and nothing is written.  A run is modelled as the
fold of that loop body over the completion events in completion order (any
order: `as_completed` gives no ordering guarantee). -/

/-- The three per-instrument collection categories. -/
inductive Category where
  | price
  | news
  | social
deriving DecidableEq

/-- The result-map key a success is recorded under (dataset.py:578, 614, 650). -/
def catKey : Category → String
  | .price => "price"
  | .news => "news"
  | .social => "social"

/-- The result-map key an error is recorded under (dataset.py:584, 620, 656). -/
def catErrKey : Category → String
  | .price => "price_error"
  | .news => "news_error"
  | .social => "social_error"

/-- A collector's returned dict, as the orchestrator's `"error" not in data`
test (dataset.py:570, 606, 642) sees it: either a dict without an `"error"`
key (success payloads, and also `"status"` records) or one with it. -/
inductive CatData where
  | payload (d : String)
  | withError (msg : String)
deriving DecidableEq

/-- One completion event: the ticker, the category, and `future.result()` —
a value, or the exception it raised. -/
structure BatchEvent where
  ticker : String
  category : Category
  outcome : Except String CatData

/-- The orchestrator's observable state: the snapshot files written (their
category, ticker and contents, in write order), and the writes into the
shared per-ticker result map (ticker, key, value, in order). -/
structure BatchState where
  files : List (Category × String × String)
  resultWrites : List (String × String × String)
deriving DecidableEq

/-- The loop body for one completed future (dataset.py:566-592 and its two
copies): a result without an `"error"` key is saved to the category's
directory and recorded under the category key; a result with one, or an
exception from `future.result()`, is recorded under the category's error
key and nothing is saved. -/
def processEvent (st : BatchState) (ev : BatchEvent) : BatchState :=
  match ev.outcome with
  | .ok (.payload d) =>
      { files := st.files ++ [(ev.category, ev.ticker, d)]
        resultWrites := st.resultWrites ++ [(ev.ticker, catKey ev.category, d)] }
  | .ok (.withError m) =>
      { st with resultWrites :=
          st.resultWrites ++ [(ev.ticker, catErrKey ev.category, m)] }
  | .error m =>
      { st with resultWrites :=
          st.resultWrites ++ [(ev.ticker, catErrKey ev.category, m)] }

/-- `collect_sentiment_data_batch` as observed through its writes: the fold
of the completion-handling loop over the completion events. -/
def collect_sentiment_data_batch (events : List BatchEvent) : BatchState :=
  events.foldl processEvent ⟨[], []⟩

/-! ## The claims -/

/-- C7: the engagement weight function
`weight(followers, reposts, likes) = 1 + 0.1*(reposts + likes) +
0.001*followers` satisfies `weight(0,0,0) = 1` and, over nonnegative
inputs, is strictly monotonically increasing in each of its three
arguments separately. -/
theorem C7_engagement_weight_unit_and_monotone :
    engagementWeight 0 0 0 = 1 ∧
    (∀ f f' r l : ℚ, 0 ≤ f → 0 ≤ f' → 0 ≤ r → 0 ≤ l → f < f' →
      engagementWeight f r l < engagementWeight f' r l) ∧
    (∀ f r r' l : ℚ, 0 ≤ f → 0 ≤ r → 0 ≤ r' → 0 ≤ l → r < r' →
      engagementWeight f r l < engagementWeight f r' l) ∧
    (∀ f r l l' : ℚ, 0 ≤ f → 0 ≤ r → 0 ≤ l → 0 ≤ l' → l < l' →
      engagementWeight f r l < engagementWeight f r l') := by
  refine ⟨by norm_num [engagementWeight], ?_, ?_, ?_⟩ <;>
    (intros; unfold engagementWeight; linarith)

/-- C4: for every scored text artifact — a primary-path news article, a
fallback-path news article, or a social post — the stored label is derived
from the compound score by exactly the rule: positive when
`compound ≥ 0.05`, negative when `compound ≤ -0.05`, neutral otherwise;
the boundary values 0.05 and -0.05 are labelled positive and negative. -/
theorem C4_label_threshold_rule :
    (∀ s : Scores, (mkSentiment s).label = sentimentLabel s.compound) ∧
    (∀ (an : String → Scores) (raws : List RawArticle),
      ∀ a ∈ processNewsArticles an raws,
        a.sentiment.label = sentimentLabel a.sentiment.compound) ∧
    (∀ (an : String → Scores) (b : AltBlock) (a : Article),
      mkAltArticle an b = some a →
        a.sentiment.label = sentimentLabel a.sentiment.compound) ∧
    (∀ (an : String → Scores) (id created_at text : String)
        (fol rt fav : ℕ),
      (mkTweetEntry an id created_at text fol rt fav).sentiment.label
        = sentimentLabel
            (mkTweetEntry an id created_at text fol rt fav).sentiment.compound) ∧
    (∀ c : ℚ, 5/100 ≤ c → sentimentLabel c = "positive") ∧
    (∀ c : ℚ, c ≤ -(5/100) → sentimentLabel c = "negative") ∧
    (∀ c : ℚ, -(5/100) < c → c < 5/100 → sentimentLabel c = "neutral") ∧
    sentimentLabel (5/100) = "positive" ∧
    sentimentLabel (-(5/100)) = "negative" := by
  refine ⟨fun s => rfl, ?_, ?_, fun an id c text f r l => rfl,
    ?_, ?_, ?_, by norm_num [sentimentLabel], by norm_num [sentimentLabel]⟩
  · intro an raws a ha
    simp only [processNewsArticles, List.mem_filterMap] at ha
    rcases ha with ⟨raw, _, hmk⟩
    by_cases hlen : (raw.title ++ " " ++ raw.description).trim.length < 20
    · rw [if_pos hlen] at hmk; cases hmk
    · rw [if_neg hlen] at hmk; cases hmk; rfl
  · intro an b a hmk
    unfold mkAltArticle at hmk
    cases hb : b.heading with
    | none => rw [hb] at hmk; cases hmk
    | some t => rw [hb] at hmk; cases hmk; rfl
  · intro c hc; unfold sentimentLabel; rw [if_pos hc]
  · intro c hc
    unfold sentimentLabel
    rw [if_neg (by linarith), if_pos hc]
  · intro c hlo hhi
    unfold sentimentLabel
    rw [if_neg (by linarith), if_neg (by linarith)]

/-- C3: with the primary news provider answering HTTP 500, the news
collector's result is the very result of running it with no NewsAPI
credential: both route to `collect_alternative_news` with the same
instrument and `days_back` arguments, so in the same environment the two
results are equal. -/
theorem C3_http500_same_as_no_credential (env : NewsEnv) (key : String)
    (ticker asset_type : String) (days_back : ℕ)
    (h500 : env.primary.status_code = 500) :
    collect_news_sentiment env (some key) ticker asset_type days_back
      = collect_news_sentiment env none ticker asset_type days_back := by
  unfold collect_news_sentiment
  rw [if_pos (by rw [h500]; decide)]

/-- C3 witness: a concrete environment whose primary response has status
500, with a key configured, gives the same result as with no key. -/
theorem C3_http500_same_as_no_credential_witness :
    collect_news_sentiment
        ⟨fun _ => ⟨0, 0, 0, 0⟩, ⟨500, "ok", 3, []⟩,
          [⟨some "Stocks rally on earnings", "N/A", "www.marketwatch.com"⟩]⟩
        (some "apikey") "AAPL" "stock" 7
      = collect_news_sentiment
          ⟨fun _ => ⟨0, 0, 0, 0⟩, ⟨500, "ok", 3, []⟩,
            [⟨some "Stocks rally on earnings", "N/A", "www.marketwatch.com"⟩]⟩
          none "AAPL" "stock" 7 :=
  C3_http500_same_as_no_credential _ "apikey" "AAPL" "stock" 7 rfl

/-- On a series longer than 10 bars, output point `i` is `attachAt` at `i`. -/
theorem collect_price_getD_long (std : List ℚ → ℚ) (bars : List Bar) (i : ℕ)
    (hi : i < bars.length) (hlen : 10 < bars.length) :
    (collect_price_data std bars).getD i (mkPlainPoint ⟨0, 0⟩)
      = attachAt std bars i := by
  unfold collect_price_data
  rw [if_pos hlen, List.getD_eq_getElem?_getD, List.getElem?_map,
    List.getElem?_range hi]
  rfl

/-- On a series of at most 10 bars, output point `i` is the plain point. -/
theorem collect_price_getD_short (std : List ℚ → ℚ) (bars : List Bar) (i : ℕ)
    (hi : i < bars.length) (hlen : ¬ 10 < bars.length) :
    (collect_price_data std bars).getD i (mkPlainPoint ⟨0, 0⟩)
      = mkPlainPoint (bars.getD i ⟨0, 0⟩) := by
  unfold collect_price_data
  rw [if_neg hlen, List.getD_eq_getElem?_getD, List.getElem?_map,
    List.getElem?_eq_getElem hi, List.getD_eq_getElem?_getD,
    List.getElem?_eq_getElem hi]
  rfl

/-- C2 counterexample: a series of exactly 6 bars has at least 6 points,
yet its 6th point (index 5) carries neither `momentum_5period` nor
`volatility_5period` — the indicator block runs only past 10 points. -/
theorem C2_counterexample_six_bars :
    ((collect_price_data (fun _ => 0) (List.replicate 6 ⟨100, 1000⟩)).getD 5
        (mkPlainPoint ⟨0, 0⟩)).momentum_5period = none ∧
    ((collect_price_data (fun _ => 0) (List.replicate 6 ⟨100, 1000⟩)).getD 5
        (mkPlainPoint ⟨0, 0⟩)).volatility_5period = none ∧
    (List.replicate 6 (⟨100, 1000⟩ : Bar)).length = 6 := by decide

/-- C2 amended: `volatility_5period` and `momentum_5period` are attached to
point `i` of the output series exactly when the series has more than 10
bars and `i ≥ 5`; in particular, for series of 6 to 10 bars they are
attached nowhere, and never at indices below 5. -/
theorem C2_indicator_presence (std : List ℚ → ℚ) (bars : List Bar) (i : ℕ)
    (hi : i < bars.length) :
    (((collect_price_data std bars).getD i
        (mkPlainPoint ⟨0, 0⟩)).momentum_5period ≠ none
      ↔ 10 < bars.length ∧ 5 ≤ i) ∧
    (((collect_price_data std bars).getD i
        (mkPlainPoint ⟨0, 0⟩)).volatility_5period ≠ none
      ↔ 10 < bars.length ∧ 5 ≤ i) := by
  by_cases hlen : 10 < bars.length
  · rw [collect_price_getD_long std bars i hi hlen]
    by_cases h5 : 5 ≤ i
    · simp [attachAt, h5, hlen]
    · simp [attachAt, h5, mkPlainPoint]
  · rw [collect_price_getD_short std bars i hi hlen]
    simp [mkPlainPoint, hlen]

/-- C2 witness: on a concrete 11-bar series, point 5 carries both fields
and point 4 carries neither. -/
theorem C2_indicator_presence_witness :
    (((collect_price_data (fun _ => 0) (List.replicate 11 ⟨100, 1000⟩)).getD 5
        (mkPlainPoint ⟨0, 0⟩)).momentum_5period ≠ none
      ↔ 10 < (List.replicate 11 (⟨100, 1000⟩ : Bar)).length ∧ 5 ≤ 5) ∧
    (((collect_price_data (fun _ => 0) (List.replicate 11 ⟨100, 1000⟩)).getD 5
        (mkPlainPoint ⟨0, 0⟩)).volatility_5period ≠ none
      ↔ 10 < (List.replicate 11 (⟨100, 1000⟩ : Bar)).length ∧ 5 ≤ 5) :=
  C2_indicator_presence (fun _ => 0) (List.replicate 11 ⟨100, 1000⟩) 5
    (by decide)

/-- The momentum field of an indicator-carrying point does not depend on
the standard-deviation routine. -/
theorem attachAt_momentum (std : List ℚ → ℚ) (bars : List Bar) (i : ℕ)
    (h5 : 5 ≤ i) :
    (attachAt std bars i).momentum_5period
      = some (round2 (((bars.map Bar.close).getD i 0
            - (bars.map Bar.close).getD (i - 5) 0)
          / (bars.map Bar.close).getD (i - 5) 0 * 100)) := by
  unfold attachAt
  rw [if_pos h5]

/-- The volume-ratio field of an indicator-carrying point does not depend
on the standard-deviation routine. -/
theorem attachAt_volume_ratio (std : List ℚ → ℚ) (bars : List Bar) (i : ℕ)
    (h5 : 5 ≤ i) :
    (attachAt std bars i).volume_ratio_5period
      = (if 0 < mean5 (bars.map Bar.volume) i
         then some (round2 ((bars.map Bar.volume).getD i 0
                      / mean5 (bars.map Bar.volume) i))
         else none) := by
  unfold attachAt
  rw [if_pos h5]

/-- C1 counterexample: price collection of exactly 6 bars (close 100,
volume 1000) yields no derived indicator row at all — not one at index 5 —
because the indicator block runs only on series longer than 10 points. -/
theorem C1_counterexample_six_bars :
    ((collect_price_data (fun _ => 0) (List.replicate 6 ⟨100, 1000⟩)).countP
        (fun p => !p.momentum_5period.isNone || !p.volatility_5period.isNone
          || !p.volume_ratio_5period.isNone)) = 0 ∧
    ((collect_price_data (fun _ => 0) (List.replicate 6 ⟨100, 1000⟩)).getD 5
        (mkPlainPoint ⟨0, 0⟩)).momentum_5period = none := by decide

/-- C1 amended: a 6-bar constant series produces no derived indicator row;
on the smallest series the indicator block does process — 11 bars, every
close 100 and volume 1000 — each index 5 through 10 is a derived indicator
row with `momentum_5period = 0.0` and `volume_ratio_5period = 1.0`,
whatever value the standard-deviation routine yields. -/
theorem C1_constant_series_indicators (std : List ℚ → ℚ) (i : ℕ)
    (h5 : 5 ≤ i) (h10 : i ≤ 10) :
    ((collect_price_data std (List.replicate 6 ⟨100, 1000⟩)).countP
        (fun p => !p.momentum_5period.isNone || !p.volatility_5period.isNone
          || !p.volume_ratio_5period.isNone)) = 0 ∧
    ((collect_price_data std (List.replicate 11 ⟨100, 1000⟩)).getD i
        (mkPlainPoint ⟨0, 0⟩)).momentum_5period = some 0 ∧
    ((collect_price_data std (List.replicate 11 ⟨100, 1000⟩)).getD i
        (mkPlainPoint ⟨0, 0⟩)).volume_ratio_5period = some 1 := by
  refine ⟨?_, ?_, ?_⟩
  · unfold collect_price_data
    rw [if_neg (by decide)]
    rw [List.countP_map]
    simp [mkPlainPoint, Function.comp]
  · interval_cases i <;>
      (rw [collect_price_getD_long _ _ _ (by decide) (by decide),
        attachAt_momentum _ _ _ (by decide)];
       norm_num [List.map_replicate, List.getD_eq_getElem?_getD,
         List.getElem?_replicate, round2, rhe])
  · interval_cases i <;>
      (rw [collect_price_getD_long _ _ _ (by decide) (by decide),
        attachAt_volume_ratio _ _ _ (by decide)];
       norm_num [List.map_replicate, List.getD_eq_getElem?_getD,
         List.getElem?_replicate, mean5, window5, List.drop_replicate,
         List.take_replicate, List.sum_replicate, round2, rhe])

/-- C1 witness: the amended statement at index 5 with the zero
standard-deviation routine. -/
theorem C1_constant_series_indicators_witness :
    ((collect_price_data (fun _ => 0) (List.replicate 6 ⟨100, 1000⟩)).countP
        (fun p => !p.momentum_5period.isNone || !p.volatility_5period.isNone
          || !p.volume_ratio_5period.isNone)) = 0 ∧
    ((collect_price_data (fun _ => 0) (List.replicate 11 ⟨100, 1000⟩)).getD 5
        (mkPlainPoint ⟨0, 0⟩)).momentum_5period = some 0 ∧
    ((collect_price_data (fun _ => 0) (List.replicate 11 ⟨100, 1000⟩)).getD 5
        (mkPlainPoint ⟨0, 0⟩)).volume_ratio_5period = some 1 :=
  C1_constant_series_indicators (fun _ => 0) 5 (by decide) (by decide)

/-- `addArticle` raises the article count by one and exactly one label
count by one. -/
theorem addArticle_counts (d : DayAgg) (a : Article) :
    (addArticle d a).positive_count + (addArticle d a).negative_count
        + (addArticle d a).neutral_count
      = d.positive_count + d.negative_count + d.neutral_count + 1
    ∧ (addArticle d a).articles = d.articles + 1 := by
  simp only [addArticle]
  split_ifs <;> simp <;> omega

/-- Every entry of the daily dict has its three label counts summing to
its article count. -/
theorem daily_sentiment_counts (arts : List Article) :
    ∀ e ∈ daily_sentiment arts,
      e.2.positive_count + e.2.negative_count + e.2.neutral_count
        = e.2.articles := by
  apply mem_groupFold dateKey addArticle dayAgg0
    (fun _ d => d.positive_count + d.negative_count + d.neutral_count
      = d.articles)
  · intro a
    have h := addArticle_counts dayAgg0 a
    simp [dayAgg0] at h ⊢
    omega
  · intro a d hd
    have h := addArticle_counts d a
    omega

/-- `addTweet` raises the tweet count by one and exactly one label count
by one. -/
theorem addTweet_counts (d : HourAgg) (t : Tweet) :
    (addTweet d t).positive_count + (addTweet d t).negative_count
        + (addTweet d t).neutral_count
      = d.positive_count + d.negative_count + d.neutral_count + 1
    ∧ (addTweet d t).tweets = d.tweets + 1 := by
  simp only [addTweet]
  split_ifs <;> simp <;> omega

/-- Every entry of the hourly dict has its three label counts summing to
its tweet count. -/
theorem hourly_sentiment_counts (tweets : List Tweet) :
    ∀ e ∈ hourly_sentiment tweets,
      e.2.positive_count + e.2.negative_count + e.2.neutral_count
        = e.2.tweets := by
  apply mem_groupFold dateHourKey addTweet hourAgg0
    (fun _ d => d.positive_count + d.negative_count + d.neutral_count
      = d.tweets)
  · intro t
    have h := addTweet_counts hourAgg0 t
    simp [hourAgg0] at h ⊢
    omega
  · intro t d hd
    have h := addTweet_counts d t
    omega

/-- Three rounded label ratios over the same positive total sum to 1 up to
the three roundings' combined error. -/
theorem ratio_sum_bound (p n z t : ℕ) (ht : 0 < t) (hsum : p + n + z = t) :
    |round3 ((p : ℚ) / t) + round3 ((n : ℚ) / t) + round3 ((z : ℚ) / t) - 1|
      ≤ 3/2000 := by
  have ht' : (t : ℚ) ≠ 0 := Nat.cast_ne_zero.mpr ht.ne'
  have hexact : (p : ℚ) / t + (n : ℚ) / t + (z : ℚ) / t = 1 := by
    field_simp
    exact_mod_cast hsum
  have h1 := abs_round3_sub ((p : ℚ) / t)
  have h2 := abs_round3_sub ((n : ℚ) / t)
  have h3 := abs_round3_sub ((z : ℚ) / t)
  rw [abs_le] at h1 h2 h3 ⊢
  constructor <;> linarith

/-- C5: every emitted daily (news) or hourly (social) aggregate bucket has
a nonzero item count, and its positive, negative and neutral ratios — each
the corresponding label count over that same count, rounded to 3 decimals —
sum to 1 within the rounding tolerance 3/2000. -/
theorem C5_bucket_ratio_sums (arts : List Article) (tweets : List Tweet) :
    (∀ b ∈ sortStable (fun x y => decide (x.date < y.date))
        (daily_averages arts),
      0 < b.articles_count ∧
        |b.positive_ratio + b.negative_ratio + b.neutral_ratio - 1|
          ≤ 3/2000) ∧
    (∀ b ∈ (collect_social_sentiment tweets).hourly_averages,
      0 < b.tweets_count ∧
        |b.positive_ratio + b.negative_ratio + b.neutral_ratio - 1|
          ≤ 3/2000) := by
  constructor
  · intro b hb
    rw [mem_sortStable] at hb
    unfold daily_averages at hb
    rcases List.mem_filterMap.mp hb with ⟨e, he, hmk⟩
    by_cases hpos : 0 < e.2.articles
    · rw [if_pos hpos] at hmk
      have hcounts := daily_sentiment_counts arts e he
      cases hmk
      exact ⟨hpos, ratio_sum_bound _ _ _ _ hpos hcounts⟩
    · rw [if_neg hpos] at hmk
      cases hmk
  · intro b hb
    unfold collect_social_sentiment at hb
    simp only at hb
    rw [mem_sortStable] at hb
    unfold hourly_averages at hb
    rcases List.mem_filterMap.mp hb with ⟨e, he, hmk⟩
    by_cases hpos : 0 < e.2.tweets
    · rw [if_pos hpos] at hmk
      have hcounts := hourly_sentiment_counts tweets e he
      cases hmk
      exact ⟨hpos, ratio_sum_bound _ _ _ _ hpos hcounts⟩
    · rw [if_neg hpos] at hmk
      cases hmk

/-- The numeric accumulator fields of `addTweet` change the same way in
every label branch. -/
theorem addTweet_fields (d : HourAgg) (t : Tweet) :
    (addTweet d t).tweets = d.tweets + 1 ∧
    (addTweet d t).sentiment_sum = d.sentiment_sum + t.sentiment.compound ∧
    (addTweet d t).sentiment_weighted_sum
      = d.sentiment_weighted_sum + t.sentiment.compound * tweetWeight t ∧
    (addTweet d t).total_weight = d.total_weight + tweetWeight t := by
  simp only [addTweet]
  split_ifs <;> simp

/-- Folding a whole list of tweets into one accumulator. -/
def aggTweets (l : List Tweet) : HourAgg := l.foldl addTweet hourAgg0

/-- The accumulator a tweet list folds to, field by field: count, compound
sum, engagement-weighted compound sum, and total weight. -/
theorem aggTweets_fields (l : List Tweet) :
    (aggTweets l).tweets = l.length ∧
    (aggTweets l).sentiment_sum
      = (l.map (fun t => t.sentiment.compound)).sum ∧
    (aggTweets l).sentiment_weighted_sum
      = (l.map (fun t => t.sentiment.compound * tweetWeight t)).sum ∧
    (aggTweets l).total_weight = (l.map tweetWeight).sum := by
  have main : ∀ (l : List Tweet) (d : HourAgg),
      (l.foldl addTweet d).tweets = d.tweets + l.length ∧
      (l.foldl addTweet d).sentiment_sum
        = d.sentiment_sum + (l.map (fun t => t.sentiment.compound)).sum ∧
      (l.foldl addTweet d).sentiment_weighted_sum
        = d.sentiment_weighted_sum
          + (l.map (fun t => t.sentiment.compound * tweetWeight t)).sum ∧
      (l.foldl addTweet d).total_weight
        = d.total_weight + (l.map tweetWeight).sum := by
    intro l
    induction l with
    | nil => intro d; simp
    | cons t tl ih =>
        intro d
        obtain ⟨h1, h2, h3, h4⟩ := ih (addTweet d t)
        obtain ⟨g1, g2, g3, g4⟩ := addTweet_fields d t
        rw [List.foldl_cons]
        refine ⟨?_, ?_, ?_, ?_⟩ <;>
          simp only [h1, h2, h3, h4, g1, g2, g3, g4, List.map_cons,
            List.sum_cons, List.length_cons] <;> ring
  have h := main l hourAgg0
  simpa [aggTweets, hourAgg0] using h

/-- Every entry of the hourly dict is the fold of a nonempty list of
tweets, all of its own bucket key — the entry's contributing posts. -/
theorem hourly_sentiment_entries (tweets : List Tweet) :
    ∀ e ∈ hourly_sentiment tweets,
      ∃ l : List Tweet, l ≠ [] ∧ (∀ t ∈ l, dateHourKey t = e.1) ∧
        e.2 = aggTweets l := by
  apply mem_groupFold dateHourKey addTweet hourAgg0
    (fun k d => ∃ l : List Tweet, l ≠ [] ∧ (∀ t ∈ l, dateHourKey t = k) ∧
      d = aggTweets l)
  · intro t
    exact ⟨[t], by simp, by simp, by simp [aggTweets]⟩
  · rintro t d ⟨l, hne, hk, rfl⟩
    refine ⟨l ++ [t], by simp, ?_, ?_⟩
    · intro x hx
      rcases List.mem_append.mp hx with h | h
      · exact hk x h
      · rw [List.mem_singleton.mp h]
    · simp [aggTweets, List.foldl_append]

/-- Each hourly dict entry's accumulator is exactly the fold of the input
posts whose bucket key is the entry's key — the bucket's actual
contributing posts, in fetch order. -/
theorem hourly_sentiment_filter (tweets : List Tweet) :
    ∀ e ∈ hourly_sentiment tweets,
      e.2 = aggTweets
        (tweets.filter (fun t => decide (dateHourKey t = e.1))) := by
  intro e he
  exact groupFold_entries_filter dateHourKey addTweet hourAgg0 tweets e he

/-- C8: in every emitted hourly aggregate, the bucket's contributing posts
are exactly the input posts whose date-hour key is the bucket's key; when
their total engagement weight is positive — the bucket's `total_weight` —
the emitted `weighted_sentiment` is `sum(compound * weight) / sum(weight)`
over those posts, rounded to 3 decimals, and were the total weight zero it
would instead be the bucket's (rounded) unweighted average
`avg_sentiment`. -/
theorem C8_weighted_sentiment (tweets : List Tweet) :
    ∀ b ∈ (collect_social_sentiment tweets).hourly_averages,
      tweets.filter (fun t => decide (dateHourKey t = b.date_hour)) ≠ [] ∧
      b.tweets_count
        = (tweets.filter
            (fun t => decide (dateHourKey t = b.date_hour))).length ∧
      (0 < ((tweets.filter
            (fun t => decide (dateHourKey t = b.date_hour))).map
            tweetWeight).sum →
        b.weighted_sentiment
          = round3
              (((tweets.filter
                  (fun t => decide (dateHourKey t = b.date_hour))).map
                  (fun t => t.sentiment.compound * tweetWeight t)).sum
                / ((tweets.filter
                    (fun t => decide (dateHourKey t = b.date_hour))).map
                    tweetWeight).sum)) ∧
      (((tweets.filter
          (fun t => decide (dateHourKey t = b.date_hour))).map
          tweetWeight).sum = 0 →
        b.weighted_sentiment = b.avg_sentiment) := by
  intro b hb
  unfold collect_social_sentiment at hb
  simp only at hb
  rw [mem_sortStable] at hb
  unfold hourly_averages at hb
  rcases List.mem_filterMap.mp hb with ⟨e, he, hmk⟩
  by_cases hpos : 0 < e.2.tweets
  · rw [if_pos hpos] at hmk
    have hagg := hourly_sentiment_filter tweets e he
    obtain ⟨f1, f2, f3, f4⟩ := aggTweets_fields
      (tweets.filter (fun t => decide (dateHourKey t = e.1)))
    cases hmk
    refine ⟨?_, ?_, ?_, ?_⟩
    · intro hnil
      rw [hagg, f1, hnil] at hpos
      simp at hpos
    · rw [hagg, f1]
    · intro htw
      rw [hagg, f3, f4, if_pos (by rw [hagg, f4] at *; exact htw)]
    · intro htw
      rw [if_neg (by rw [hagg, f4]; rw [htw]; exact lt_irrefl 0)]
  · rw [if_neg hpos] at hmk
    cases hmk

/-- Every tweet's engagement weight is at least 1: the platform counters
are nonnegative integers. -/
theorem one_le_tweetWeight (t : Tweet) : 1 ≤ tweetWeight t := by
  unfold tweetWeight engagementWeight
  have h1 : (0 : ℚ) ≤ (t.retweet_count : ℚ) := Nat.cast_nonneg _
  have h2 : (0 : ℚ) ≤ (t.favorite_count : ℚ) := Nat.cast_nonneg _
  have h3 : (0 : ℚ) ≤ (t.user_followers : ℚ) := Nat.cast_nonneg _
  linarith

/-- Every hourly dict entry holds at least one post, and its total weight
is at least its post count. -/
theorem hourly_sentiment_weight_bounds (tweets : List Tweet) :
    ∀ e ∈ hourly_sentiment tweets,
      1 ≤ e.2.tweets ∧ (e.2.tweets : ℚ) ≤ e.2.total_weight := by
  apply mem_groupFold dateHourKey addTweet hourAgg0
    (fun _ d => 1 ≤ d.tweets ∧ (d.tweets : ℚ) ≤ d.total_weight)
  · intro t
    obtain ⟨g1, _, _, g4⟩ := addTweet_fields hourAgg0 t
    refine ⟨by rw [g1]; norm_num [hourAgg0], ?_⟩
    rw [g1, g4]
    have h0 : hourAgg0.tweets = 0 := rfl
    have h0' : hourAgg0.total_weight = 0 := rfl
    rw [h0, h0']
    push_cast
    have := one_le_tweetWeight t
    linarith
  · intro t d hd
    obtain ⟨g1, _, _, g4⟩ := addTweet_fields d t
    refine ⟨by omega, ?_⟩
    rw [g1, g4]
    push_cast
    have := one_le_tweetWeight t
    linarith [hd.2]

/-- C10: since repost, like and follower counts are nonnegative integers,
every post's weight is at least 1, so every hourly dict entry has total
weight at least its post count, hence positive; the zero-total-weight
fallback of the weighted-average computation is therefore unreachable, and
every emitted bucket's `weighted_sentiment` comes from the weighted
branch. -/
theorem C10_zero_weight_fallback_unreachable (tweets : List Tweet) :
    (∀ t : Tweet, 1 ≤ tweetWeight t) ∧
    (∀ e ∈ hourly_sentiment tweets,
      1 ≤ e.2.tweets ∧ (e.2.tweets : ℚ) ≤ e.2.total_weight ∧
        0 < e.2.total_weight) ∧
    (∀ b ∈ (collect_social_sentiment tweets).hourly_averages,
      ∃ e ∈ hourly_sentiment tweets, 0 < e.2.total_weight ∧
        b.weighted_sentiment
          = round3 (e.2.sentiment_weighted_sum / e.2.total_weight)) := by
  have hentry := hourly_sentiment_weight_bounds tweets
  have hpos : ∀ e ∈ hourly_sentiment tweets, 0 < e.2.total_weight := by
    intro e he
    obtain ⟨h1, h2⟩ := hentry e he
    have : (1 : ℚ) ≤ (e.2.tweets : ℚ) := by exact_mod_cast h1
    linarith
  refine ⟨one_le_tweetWeight, fun e he => ⟨(hentry e he).1, (hentry e he).2,
    hpos e he⟩, ?_⟩
  intro b hb
  unfold collect_social_sentiment at hb
  simp only at hb
  rw [mem_sortStable] at hb
  unfold hourly_averages at hb
  rcases List.mem_filterMap.mp hb with ⟨e, he, hmk⟩
  by_cases hp : 0 < e.2.tweets
  · rw [if_pos hp] at hmk
    cases hmk
    exact ⟨e, he, hpos e he, by rw [if_pos (hpos e he)]⟩
  · rw [if_neg hp] at hmk
    cases hmk

/-- Summing a projection through a `filterMap` that keeps every element. -/
theorem sum_map_filterMap_of_total {β γ : Type} (f : β → Option γ)
    (g : γ → ℕ) (h : β → ℕ) (l : List β)
    (hf : ∀ x ∈ l, ∃ y, f x = some y ∧ g y = h x) :
    ((l.filterMap f).map g).sum = (l.map h).sum := by
  induction l with
  | nil => simp
  | cons x tl ih =>
      obtain ⟨y, hy, hgy⟩ := hf x (List.mem_cons_self _ _)
      rw [List.filterMap_cons, hy]
      simp only [List.map_cons, List.sum_cons, hgy]
      rw [ih (fun x hx => hf x (List.mem_cons_of_mem _ hx))]

/-- The emitted hourly aggregates' post counts sum to the number of posts
aggregated: every post lands in exactly one bucket and every bucket is
emitted. -/
theorem sum_tweets_count_hourly_averages (tweets : List Tweet) :
    ((hourly_averages tweets).map (fun b => b.tweets_count)).sum
      = tweets.length := by
  unfold hourly_averages
  rw [sum_map_filterMap_of_total _ _ (fun e => e.2.tweets)]
  · have h := sum_groupFold dateHourKey (fun d => d.tweets) addTweet hourAgg0
      1 (fun d t => (addTweet_fields d t).1) rfl tweets
    simpa [hourly_sentiment] using h
  · intro e he
    have h1 : 1 ≤ e.2.tweets :=
      (hourly_sentiment_weight_bounds tweets e he).1
    refine ⟨_, if_pos (by omega), rfl⟩

/-- C9: a successful social collection over K fetched-and-filtered posts
returns a bundle whose embedded raw post list is exactly the first
`min K 100` posts in fetch order, while `total_tweets` and the hourly
aggregates cover all K posts (their bucket counts sum to K). -/
theorem C9_bundle_caps_posts (tweets : List Tweet)
    (hK : tweets.length ≤ 500) :
    (collect_social_sentiment tweets).total_tweets = tweets.length ∧
    (collect_social_sentiment tweets).tweets.length
      = min tweets.length 100 ∧
    (∀ i, i < min tweets.length 100 →
      (collect_social_sentiment tweets).tweets[i]? = tweets[i]?) ∧
    ((collect_social_sentiment tweets).hourly_averages.map
        (fun b => b.tweets_count)).sum = tweets.length := by
  refine ⟨rfl, ?_, ?_, ?_⟩
  · show (tweets.take 100).length = min tweets.length 100
    rw [List.length_take]
    omega
  · intro i hi
    show (tweets.take 100)[i]? = tweets[i]?
    rw [List.getElem?_take, if_pos (by omega)]
  · show ((sortStable (fun a b => decide (a.date_hour < b.date_hour))
        (hourly_averages tweets)).map (fun b => b.tweets_count)).sum
      = tweets.length
    rw [List.Perm.sum_eq (List.Perm.map _ (sortStable_perm _ _))]
    exact sum_tweets_count_hourly_averages tweets

/-- C9 witness: the bundle over one concrete post. -/
theorem C9_bundle_caps_posts_witness :
    (collect_social_sentiment
        [⟨"1", "2024-03-01 10:00:00", "market looks calm today", 0, 0, 0,
          mkSentiment ⟨0, 0, 0, 1⟩⟩]).total_tweets
      = [(⟨"1", "2024-03-01 10:00:00", "market looks calm today", 0, 0, 0,
          mkSentiment ⟨0, 0, 0, 1⟩⟩ : Tweet)].length ∧
    (collect_social_sentiment
        [⟨"1", "2024-03-01 10:00:00", "market looks calm today", 0, 0, 0,
          mkSentiment ⟨0, 0, 0, 1⟩⟩]).tweets.length
      = min [(⟨"1", "2024-03-01 10:00:00", "market looks calm today", 0, 0, 0,
          mkSentiment ⟨0, 0, 0, 1⟩⟩ : Tweet)].length 100 ∧
    (∀ i, i < min [(⟨"1", "2024-03-01 10:00:00", "market looks calm today",
          0, 0, 0, mkSentiment ⟨0, 0, 0, 1⟩⟩ : Tweet)].length 100 →
      (collect_social_sentiment
          [⟨"1", "2024-03-01 10:00:00", "market looks calm today", 0, 0, 0,
            mkSentiment ⟨0, 0, 0, 1⟩⟩]).tweets[i]?
        = [(⟨"1", "2024-03-01 10:00:00", "market looks calm today", 0, 0, 0,
            mkSentiment ⟨0, 0, 0, 1⟩⟩ : Tweet)][i]?) ∧
    ((collect_social_sentiment
        [⟨"1", "2024-03-01 10:00:00", "market looks calm today", 0, 0, 0,
          mkSentiment ⟨0, 0, 0, 1⟩⟩]).hourly_averages.map
        (fun b => b.tweets_count)).sum
      = [(⟨"1", "2024-03-01 10:00:00", "market looks calm today", 0, 0, 0,
          mkSentiment ⟨0, 0, 0, 1⟩⟩ : Tweet)].length :=
  C9_bundle_caps_posts _ (by simp)

/-- The batch fold's observable writes, in closed form: the files are the
payload results in completion order, the result-map writes record every
event once — under the category key on success, the category error key
otherwise. -/
theorem batch_fold_spec (events : List BatchEvent) (st : BatchState) :
    (events.foldl processEvent st).files
      = st.files ++ events.filterMap (fun ev =>
          match ev.outcome with
          | .ok (.payload d) => some (ev.category, ev.ticker, d)
          | _ => none) ∧
    (events.foldl processEvent st).resultWrites
      = st.resultWrites ++ events.map (fun ev =>
          match ev.outcome with
          | .ok (.payload d) => (ev.ticker, catKey ev.category, d)
          | .ok (.withError m) => (ev.ticker, catErrKey ev.category, m)
          | .error m => (ev.ticker, catErrKey ev.category, m)) := by
  induction events generalizing st with
  | nil => simp
  | cons ev tl ih =>
      obtain ⟨ih1, ih2⟩ := ih (processEvent st ev)
      rw [List.foldl_cons]
      constructor
      · rw [ih1, List.filterMap_cons]
        cases ho : ev.outcome with
        | ok cd => cases cd <;> simp [processEvent, ho]
        | error m => simp [processEvent, ho]
      · rw [ih2, List.map_cons]
        cases ho : ev.outcome with
        | ok cd => cases cd <;> simp [processEvent, ho]
        | error m => simp [processEvent, ho]

/-- C6: in the batch orchestrator, a snapshot file for a category and
ticker is written exactly when that category's collection for that ticker
completed with a result carrying no error; a result carrying an error, or
an exception while obtaining the result, is recorded in the result map
under the category's error key and is never persisted. -/
theorem C6_persist_iff_success (events : List BatchEvent) :
    (∀ (c : Category) (t d : String),
      (c, t, d) ∈ (collect_sentiment_data_batch events).files
        ↔ ∃ ev ∈ events, ev.ticker = t ∧ ev.category = c ∧
            ev.outcome = Except.ok (CatData.payload d)) ∧
    (∀ ev ∈ events, ∀ m : String,
      (ev.outcome = Except.ok (CatData.withError m) ∨
          ev.outcome = Except.error m) →
        (ev.ticker, catErrKey ev.category, m)
          ∈ (collect_sentiment_data_batch events).resultWrites) := by
  obtain ⟨h1, h2⟩ := batch_fold_spec events ⟨[], []⟩
  constructor
  · intro c t d
    unfold collect_sentiment_data_batch
    rw [h1]
    simp only [List.nil_append, List.mem_filterMap]
    constructor
    · rintro ⟨ev, hev, hm⟩
      refine ⟨ev, hev, ?_⟩
      cases ho : ev.outcome with
      | ok cd =>
          cases cd with
          | payload d' =>
              rw [ho] at hm
              simp only at hm
              cases hm
              exact ⟨rfl, rfl, rfl⟩
          | withError m => rw [ho] at hm; cases hm
      | error m => rw [ho] at hm; cases hm
    · rintro ⟨ev, hev, rfl, rfl, ho⟩
      exact ⟨ev, hev, by simp [ho]⟩
  · intro ev hev m hm
    unfold collect_sentiment_data_batch
    rw [h2]
    simp only [List.nil_append, List.mem_map]
    refine ⟨ev, hev, ?_⟩
    rcases hm with h | h <;> rw [h]

/-- C6 witness: with one successful price result and one erroring news
result, the price snapshot is on disk and the news error is in the result
map. -/
theorem C6_persist_iff_success_witness :
    ((Category.price, "AAPL", "payload")
        ∈ (collect_sentiment_data_batch
            [⟨"AAPL", Category.price, Except.ok (CatData.payload "payload")⟩,
             ⟨"TSLA", Category.news,
               Except.ok (CatData.withError "boom")⟩]).files) ∧
    (("TSLA", catErrKey Category.news, "boom")
        ∈ (collect_sentiment_data_batch
            [⟨"AAPL", Category.price, Except.ok (CatData.payload "payload")⟩,
             ⟨"TSLA", Category.news,
               Except.ok (CatData.withError "boom")⟩]).resultWrites) := by
  constructor
  · exact ((C6_persist_iff_success _).1 Category.price "AAPL" "payload").mpr
      ⟨⟨"AAPL", Category.price, Except.ok (CatData.payload "payload")⟩,
        by simp, rfl, rfl, rfl⟩
  · exact (C6_persist_iff_success _).2
      ⟨"TSLA", Category.news, Except.ok (CatData.withError "boom")⟩
      (by simp) "boom" (Or.inl rfl)

/-- A concrete filtered tweet entry: neutral scores, no engagement. -/
def sampleTweet : Tweet :=
  ⟨"1", "2024-03-01 10:00:00", "market looks calm today", 0, 0, 0,
    mkSentiment ⟨0, 0, 0, 1⟩⟩

/-- The hourly aggregate the social pipeline emits for `[sampleTweet]`. -/
def sampleBucket : HourlyAvg :=
  ⟨dateHourKey sampleTweet, 1, 0, 0, 0, 0, 1⟩

theorem hourly_sentiment_sample : hourly_sentiment [sampleTweet]
    = [(dateHourKey sampleTweet, addTweet hourAgg0 sampleTweet)] := by
  simp [hourly_sentiment, groupFold, addToMap]

theorem addTweet_sample :
    addTweet hourAgg0 sampleTweet = ⟨1, 0, 0, 1, 0, 0, 1⟩ := by
  have hlab : sampleTweet.sentiment.label = "neutral" := by
    norm_num [sampleTweet, mkSentiment, sentimentLabel]
  simp only [addTweet, hlab]
  rw [if_neg (by decide), if_neg (by decide)]
  norm_num [hourAgg0, sampleTweet, mkSentiment, tweetWeight,
    engagementWeight]

theorem hourly_averages_sample :
    hourly_averages [sampleTweet] = [sampleBucket] := by
  rw [hourly_averages, hourly_sentiment_sample, addTweet_sample]
  norm_num [List.filterMap_cons, List.filterMap_nil, sampleBucket,
    round3, rhe]

theorem sampleBucket_mem :
    sampleBucket ∈ (collect_social_sentiment [sampleTweet]).hourly_averages := by
  unfold collect_social_sentiment
  simp only
  rw [mem_sortStable, hourly_averages_sample]
  exact List.mem_singleton.mpr rfl

/-- C8 witness: the single-post bucket; its contributing posts are the
input's matching posts and its weighted sentiment is their rounded
weighted average. -/
theorem C8_weighted_sentiment_witness :
    [sampleTweet].filter
        (fun t => decide (dateHourKey t = sampleBucket.date_hour)) ≠ [] ∧
    sampleBucket.tweets_count
      = ([sampleTweet].filter
          (fun t => decide (dateHourKey t = sampleBucket.date_hour))).length ∧
    (0 < (([sampleTweet].filter
          (fun t => decide (dateHourKey t = sampleBucket.date_hour))).map
          tweetWeight).sum →
      sampleBucket.weighted_sentiment
        = round3
            ((([sampleTweet].filter
                (fun t => decide (dateHourKey t = sampleBucket.date_hour))).map
                (fun t => t.sentiment.compound * tweetWeight t)).sum
              / (([sampleTweet].filter
                  (fun t => decide (dateHourKey t = sampleBucket.date_hour))).map
                  tweetWeight).sum)) ∧
    ((([sampleTweet].filter
        (fun t => decide (dateHourKey t = sampleBucket.date_hour))).map
        tweetWeight).sum = 0 →
      sampleBucket.weighted_sentiment = sampleBucket.avg_sentiment) :=
  C8_weighted_sentiment [sampleTweet] sampleBucket sampleBucket_mem

/-- A concrete processed news article: neutral scores. -/
def sampleArticle : Article :=
  ⟨"MarketWatch", "Quiet session for stocks", "2024-03-01T09:00:00Z", "u",
    mkSentiment ⟨0, 0, 0, 1⟩⟩

/-- The daily aggregate the news pipeline emits for `[sampleArticle]`. -/
def sampleDaily : DailyAvg := ⟨dateKey sampleArticle, 1, 0, 0, 0, 1⟩

theorem daily_sentiment_sample : daily_sentiment [sampleArticle]
    = [(dateKey sampleArticle, addArticle dayAgg0 sampleArticle)] := by
  simp [daily_sentiment, groupFold, addToMap]

theorem addArticle_sample :
    addArticle dayAgg0 sampleArticle = ⟨1, 0, 0, 0, 1⟩ := by
  have hlab : sampleArticle.sentiment.label = "neutral" := by
    norm_num [sampleArticle, mkSentiment, sentimentLabel]
  simp only [addArticle, hlab]
  rw [if_neg (by decide), if_neg (by decide)]
  norm_num [dayAgg0, sampleArticle, mkSentiment]

theorem daily_averages_sample :
    daily_averages [sampleArticle] = [sampleDaily] := by
  rw [daily_averages, daily_sentiment_sample, addArticle_sample]
  norm_num [List.filterMap_cons, List.filterMap_nil, sampleDaily,
    round3, rhe]

theorem sampleDaily_mem :
    sampleDaily ∈ sortStable (fun x y => decide (x.date < y.date))
      (daily_averages [sampleArticle]) := by
  rw [mem_sortStable, daily_averages_sample]
  exact List.mem_singleton.mpr rfl

/-- C5 witness: the emitted daily and hourly buckets over one neutral
article and one neutral post have nonzero counts and ratio sums within
tolerance. -/
theorem C5_bucket_ratio_sums_witness :
    (0 < sampleDaily.articles_count ∧
      |sampleDaily.positive_ratio + sampleDaily.negative_ratio
          + sampleDaily.neutral_ratio - 1| ≤ 3/2000) ∧
    (0 < sampleBucket.tweets_count ∧
      |sampleBucket.positive_ratio + sampleBucket.negative_ratio
          + sampleBucket.neutral_ratio - 1| ≤ 3/2000) :=
  ⟨(C5_bucket_ratio_sums [sampleArticle] [sampleTweet]).1 sampleDaily
      sampleDaily_mem,
   (C5_bucket_ratio_sums [sampleArticle] [sampleTweet]).2 sampleBucket
      sampleBucket_mem⟩

/-- C10 witness: the sample post's weight is at least 1 and the sample
bucket's weighted sentiment comes from the weighted branch. -/
theorem C10_zero_weight_fallback_unreachable_witness :
    1 ≤ tweetWeight sampleTweet ∧
    (∃ e ∈ hourly_sentiment [sampleTweet], 0 < e.2.total_weight ∧
      sampleBucket.weighted_sentiment
        = round3 (e.2.sentiment_weighted_sum / e.2.total_weight)) :=
  ⟨(C10_zero_weight_fallback_unreachable [sampleTweet]).1 sampleTweet,
   (C10_zero_weight_fallback_unreachable [sampleTweet]).2.2 sampleBucket
      sampleBucket_mem⟩
